import Mathlib

/-!
Shallow embedding of the oci.fyi signature/attestation walker.

The repository fetches an image's companion signature/attestation manifest,
walks its layers, decodes the `dev.sigstore.cosign/bundle`,
`dev.sigstore.cosign/certificate` and `predicateType` annotations, parses
Fulcio certificate extensions into a provenance record, and (for
DSSE-enveloped layers) reads the in-toto statement header.

External collaborators (the registry transport, Go's `encoding/json`,
`encoding/pem`, `crypto/x509` and the DSSE/base64 decoding of layer blobs)
are modelled as an explicit environment of functions (`Env`); the
repository's own control flow (`getData`, `readDSSEHeader`,
`parseExtensions`, `buildConfigURL` and the per-layer annotation switch) is
embedded definition-for-definition.  A Go function returning
`(T, error)` becomes `GoResult T`; a nil-pointer dereference is modelled by
the distinguished outcome `GoResult.crash`.
-/

namespace OciFyi

/-- Transparency-log bundle metadata (`bundle.RekorBundle`): integration
timestamp and log index, decoded from the bundle annotation's JSON. -/
structure RekorBundle where
  integratedTime : Int
  logIndex : Int
deriving DecidableEq, Repr

/-- A decoded PEM block (`pem.Block`): the DER bytes it armors. -/
structure PemBlock where
  bytes : List Nat
deriving DecidableEq, Repr

/-- One X.509 extension (`pkix.Extension`): an OID and its raw value bytes. -/
structure PkixExtension where
  oid : List Nat
  value : List Nat
deriving DecidableEq, Repr

/-- A parsed X.509 certificate (`x509.Certificate`), restricted to the parts
the repository reads: its extension list and its subject-alternative names. -/
structure Certificate where
  extensions : List PkixExtension
  emailAddresses : List String
  uris : List String
deriving DecidableEq, Repr

/-- A DSSE envelope (`dsse.Envelope`): payload type and base64 payload. -/
structure DSSEEnvelope where
  payloadType : String
  payload : String
deriving DecidableEq, Repr

/-- An in-toto statement header (`in_toto.StatementHeader`). -/
structure StatementHeader where
  stype : String
  predicateType : String
  subject : List String
deriving DecidableEq, Repr

/-- One OCI manifest layer: digest, media type, and its annotation
key/value map.  The map is modelled as an association list; Go iterates a
map in unspecified order, so no theorem may depend on the list order unless
it proves order-independence explicitly. -/
structure ManifestLayer where
  digest : String
  mediaType : String
  annots : List (String × String)
deriving DecidableEq, Repr

/-- Failure of the manifest-fetch collaborator, per the spec's external
interface `FetchManifest(ref) -> ... | NotFound | TransportError`. -/
inductive FetchErr where
  | notFound
  | transportErr (msg : String)
deriving DecidableEq, Repr

/-- A Go error value.  `wrap ctx cause` models
`fmt.Errorf(ctx ++ ": %w", cause)`, which preserves the wrapped cause for
`errors.Is` / `errors.As`-style inspection. -/
inductive GoErr where
  | str (msg : String)
  | fetchErr (e : FetchErr)
  | wrap (context : String) (cause : GoErr)
deriving DecidableEq, Repr

/-- Whether an error chain bottoms out in the collaborator's NotFound
condition; models unwrapping the `%w` chain with `errors.Is`/`errors.As`. -/
def GoErr.isNotFound : GoErr → Bool
  | .fetchErr .notFound => true
  | .wrap _ cause => cause.isNotFound
  | _ => false

/-- Outcome of a Go computation returning `(α, error)`: a value, a returned
error, or a runtime panic (nil-pointer dereference). -/
inductive GoResult (α : Type) where
  | ok (val : α)
  | err (e : GoErr)
  | crash
deriving DecidableEq, Repr

/-- The external collaborators, bundled as an environment:
registry transport (`remote.Image`/`img.Digest`/`img.Manifest` merged into
one manifest fetch, and `remote.Layer`+`Uncompressed` as a layer fetch),
`encoding/json` decoding into `bundle.RekorBundle`, `pem.Decode`,
`x509.ParseCertificate`, and the JSON/base64 decoding used by
`readDSSEHeader`. -/
structure Env where
  fetchManifest : String → Except FetchErr (String × List ManifestLayer)
  jsonUnmarshalBundle : String → Option RekorBundle
  pemDecode : String → Option PemBlock
  parseCertificate : List Nat → Option Certificate
  fetchLayer : String → Except String String
  decodeEnvelope : String → Option DSSEEnvelope
  decodeStatementHeader : String → Option StatementHeader

/-- The decoded certificate-extension record
(`certificate.Extensions` from the Fulcio library). -/
structure Extensions where
  issuer : String := ""
  githubWorkflowTrigger : String := ""
  githubWorkflowSHA : String := ""
  githubWorkflowName : String := ""
  githubWorkflowRepository : String := ""
  githubWorkflowRef : String := ""
  buildSignerURI : String := ""
  buildSignerDigest : String := ""
  runnerEnvironment : String := ""
  sourceRepositoryURI : String := ""
  sourceRepositoryDigest : String := ""
  sourceRepositoryRef : String := ""
  sourceRepositoryIdentifier : String := ""
  sourceRepositoryOwnerURI : String := ""
  sourceRepositoryOwnerIdentifier : String := ""
  buildConfigURI : String := ""
  buildConfigDigest : String := ""
  buildTrigger : String := ""
  runInvocationURI : String := ""
  sourceRepositoryVisibilityAtSigning : String := ""
deriving DecidableEq, Repr

/-- The per-layer record assembled by the walker (`SignatureData` in
`src/unnamed/part_000`).  Zero value corresponds to `new(SignatureData)`. -/
structure SignatureData where
  bundle : Option RekorBundle := none
  cert : Option Certificate := none
  extensions : Extensions := {}
  layer : String := ""
  layerType : String := ""
  predicateType : String := ""
deriving DecidableEq, Repr

/-- Modelled from the spec: the Fulcio extension OIDs are an external
contract owned by the certificate authority (spec section 6); the numeric
values below reproduce that authority's published registry.  Legacy family:
1.3.6.1.4.1.57264.1.1 - 1.3.6.1.4.1.57264.1.6. -/
def OIDIssuer : List Nat := [1, 3, 6, 1, 4, 1, 57264, 1, 1]

/-- Legacy OID 1.3.6.1.4.1.57264.1.2. -/
def OIDGitHubWorkflowTrigger : List Nat := [1, 3, 6, 1, 4, 1, 57264, 1, 2]

/-- Legacy OID 1.3.6.1.4.1.57264.1.3. -/
def OIDGitHubWorkflowSHA : List Nat := [1, 3, 6, 1, 4, 1, 57264, 1, 3]

/-- Legacy OID 1.3.6.1.4.1.57264.1.4. -/
def OIDGitHubWorkflowName : List Nat := [1, 3, 6, 1, 4, 1, 57264, 1, 4]

/-- Legacy OID 1.3.6.1.4.1.57264.1.5. -/
def OIDGitHubWorkflowRepository : List Nat := [1, 3, 6, 1, 4, 1, 57264, 1, 5]

/-- Legacy OID 1.3.6.1.4.1.57264.1.6. -/
def OIDGitHubWorkflowRef : List Nat := [1, 3, 6, 1, 4, 1, 57264, 1, 6]

/-- Current-family OID 1.3.6.1.4.1.57264.1.8. -/
def OIDIssuerV2 : List Nat := [1, 3, 6, 1, 4, 1, 57264, 1, 8]

/-- Current-family OID 1.3.6.1.4.1.57264.1.9. -/
def OIDBuildSignerURI : List Nat := [1, 3, 6, 1, 4, 1, 57264, 1, 9]

/-- Current-family OID 1.3.6.1.4.1.57264.1.10. -/
def OIDBuildSignerDigest : List Nat := [1, 3, 6, 1, 4, 1, 57264, 1, 10]

/-- Current-family OID 1.3.6.1.4.1.57264.1.11. -/
def OIDRunnerEnvironment : List Nat := [1, 3, 6, 1, 4, 1, 57264, 1, 11]

/-- Current-family OID 1.3.6.1.4.1.57264.1.12. -/
def OIDSourceRepositoryURI : List Nat := [1, 3, 6, 1, 4, 1, 57264, 1, 12]

/-- Current-family OID 1.3.6.1.4.1.57264.1.13. -/
def OIDSourceRepositoryDigest : List Nat := [1, 3, 6, 1, 4, 1, 57264, 1, 13]

/-- Current-family OID 1.3.6.1.4.1.57264.1.14. -/
def OIDSourceRepositoryRef : List Nat := [1, 3, 6, 1, 4, 1, 57264, 1, 14]

/-- Current-family OID 1.3.6.1.4.1.57264.1.15. -/
def OIDSourceRepositoryIdentifier : List Nat := [1, 3, 6, 1, 4, 1, 57264, 1, 15]

/-- Current-family OID 1.3.6.1.4.1.57264.1.16. -/
def OIDSourceRepositoryOwnerURI : List Nat := [1, 3, 6, 1, 4, 1, 57264, 1, 16]

/-- Current-family OID 1.3.6.1.4.1.57264.1.17. -/
def OIDSourceRepositoryOwnerIdentifier : List Nat := [1, 3, 6, 1, 4, 1, 57264, 1, 17]

/-- Current-family OID 1.3.6.1.4.1.57264.1.18. -/
def OIDBuildConfigURI : List Nat := [1, 3, 6, 1, 4, 1, 57264, 1, 18]

/-- Current-family OID 1.3.6.1.4.1.57264.1.19. -/
def OIDBuildConfigDigest : List Nat := [1, 3, 6, 1, 4, 1, 57264, 1, 19]

/-- Current-family OID 1.3.6.1.4.1.57264.1.20. -/
def OIDBuildTrigger : List Nat := [1, 3, 6, 1, 4, 1, 57264, 1, 20]

/-- Current-family OID 1.3.6.1.4.1.57264.1.21. -/
def OIDRunInvocationURI : List Nat := [1, 3, 6, 1, 4, 1, 57264, 1, 21]

/-- Current-family OID 1.3.6.1.4.1.57264.1.22. -/
def OIDSourceRepositoryVisibilityAtSigning : List Nat := [1, 3, 6, 1, 4, 1, 57264, 1, 22]

/-- The current (DER-string-encoded) OID family, as listed by the spec's
external-interface section. -/
def currentOIDs : List (List Nat) :=
  [OIDIssuerV2, OIDBuildSignerURI, OIDBuildSignerDigest, OIDRunnerEnvironment,
   OIDSourceRepositoryURI, OIDSourceRepositoryDigest, OIDSourceRepositoryRef,
   OIDSourceRepositoryIdentifier, OIDSourceRepositoryOwnerURI,
   OIDSourceRepositoryOwnerIdentifier, OIDBuildConfigURI, OIDBuildConfigDigest,
   OIDBuildTrigger, OIDRunInvocationURI, OIDSourceRepositoryVisibilityAtSigning]

/-- Go's `string(b)`: the raw extension bytes read directly as a string. -/
def rawStr (bytes : List Nat) : String := String.mk (bytes.map Char.ofNat)

/-- Modelled from the spec: `certificate.ParseDERString` from the Fulcio
library (external to this repository) unwraps a DER-encoded
UTF8String (tag 12) or PrintableString (tag 19); any value that is not a
valid DER string is an error.  Modelled as a single-byte-length DER string
that must consume the whole value. -/
def parseDERString (value : List Nat) : Option String :=
  match value with
  | tag :: len :: rest =>
    if (tag = 12 ∨ tag = 19) ∧ len = rest.length ∧ rest.length < 128 then
      some (rawStr rest)
    else none
  | _ => none

/-- Applies one current-family assignment: unwrap the DER string and set the
field, or fail as `parseExtensions` does on invalid DER. -/
def derSet (value : List Nat) (f : String → Extensions) : Except GoErr Extensions :=
  match parseDERString value with
  | none => .error (.str "unmarshalling DER-encoded string")
  | some s => .ok (f s)

/-- One iteration of the `switch` in `parseExtensions`
(src/unnamed/part_000 lines 145-221): legacy OIDs take the raw bytes as the
field value, current OIDs go through the DER-string decoder. -/
def extStep (out : Extensions) (e : PkixExtension) : Except GoErr Extensions :=
  if e.oid = OIDIssuer then .ok { out with issuer := rawStr e.value }
  else if e.oid = OIDGitHubWorkflowTrigger then
    .ok { out with githubWorkflowTrigger := rawStr e.value }
  else if e.oid = OIDGitHubWorkflowSHA then
    .ok { out with githubWorkflowSHA := rawStr e.value }
  else if e.oid = OIDGitHubWorkflowName then
    .ok { out with githubWorkflowName := rawStr e.value }
  else if e.oid = OIDGitHubWorkflowRepository then
    .ok { out with githubWorkflowRepository := rawStr e.value }
  else if e.oid = OIDGitHubWorkflowRef then
    .ok { out with githubWorkflowRef := rawStr e.value }
  else if e.oid = OIDIssuerV2 then
    derSet e.value (fun s => { out with issuer := s })
  else if e.oid = OIDBuildSignerURI then
    derSet e.value (fun s => { out with buildSignerURI := s })
  else if e.oid = OIDBuildSignerDigest then
    derSet e.value (fun s => { out with buildSignerDigest := s })
  else if e.oid = OIDRunnerEnvironment then
    derSet e.value (fun s => { out with runnerEnvironment := s })
  else if e.oid = OIDSourceRepositoryURI then
    derSet e.value (fun s => { out with sourceRepositoryURI := s })
  else if e.oid = OIDSourceRepositoryDigest then
    derSet e.value (fun s => { out with sourceRepositoryDigest := s })
  else if e.oid = OIDSourceRepositoryRef then
    derSet e.value (fun s => { out with sourceRepositoryRef := s })
  else if e.oid = OIDSourceRepositoryIdentifier then
    derSet e.value (fun s => { out with sourceRepositoryIdentifier := s })
  else if e.oid = OIDSourceRepositoryOwnerURI then
    derSet e.value (fun s => { out with sourceRepositoryOwnerURI := s })
  else if e.oid = OIDSourceRepositoryOwnerIdentifier then
    derSet e.value (fun s => { out with sourceRepositoryOwnerIdentifier := s })
  else if e.oid = OIDBuildConfigURI then
    derSet e.value (fun s => { out with buildConfigURI := s })
  else if e.oid = OIDBuildConfigDigest then
    derSet e.value (fun s => { out with buildConfigDigest := s })
  else if e.oid = OIDBuildTrigger then
    derSet e.value (fun s => { out with buildTrigger := s })
  else if e.oid = OIDRunInvocationURI then
    derSet e.value (fun s => { out with runInvocationURI := s })
  else if e.oid = OIDSourceRepositoryVisibilityAtSigning then
    derSet e.value (fun s => { out with sourceRepositoryVisibilityAtSigning := s })
  else .ok out

/-- The extension loop of `parseExtensions`: on a DER-string failure the Go
code returns `(certificate.Extensions{}, err)` immediately, discarding the
accumulator. -/
def parseExtensionsAux (out : Extensions) : List PkixExtension → Except GoErr Extensions
  | [] => .ok out
  | e :: rest =>
    match extStep out e with
    | .error err => .error err
    | .ok out2 => parseExtensionsAux out2 rest

/-- `parseExtensions` (src/unnamed/part_000 lines 142-227): fold the OID
dispatch over the certificate's extension list, starting from the zero
record. -/
def parseExtensions (exts : List PkixExtension) : Except GoErr Extensions :=
  parseExtensionsAux {} exts

/-- The annotation key carrying the transparency-log bundle JSON. -/
def bundleAnnKey : String := "dev.sigstore.cosign/bundle"

/-- The annotation key carrying the PEM certificate. -/
def certAnnKey : String := "dev.sigstore.cosign/certificate"

/-- The annotation key carrying the plain predicate-type string. -/
def predTypeAnnKey : String := "predicateType"

/-- The media type that triggers statement-header extraction. -/
def dsseMediaType : String := "application/vnd.dsse.envelope.v1+json"

/-- The expected inner payload type of a DSSE envelope. -/
def intotoPayloadType : String := "application/vnd.in-toto+json"

/-- One iteration of the annotation `switch` in `getData`
(src/unnamed/part_000 lines 71-96).  Note two source facts this embedding
preserves exactly: (a) `pem.Decode`'s nil result is not checked before
`data.Bytes` is read, so a value with no PEM block is a nil-pointer
dereference (`crash`); (b) the `predicateType` case assigns to
`s.LayerType`, not `s.PredicateType`. -/
def annotStep (env : Env) (s : SignatureData) (kv : String × String) : GoResult SignatureData :=
  if kv.1 = bundleAnnKey then
    match env.jsonUnmarshalBundle kv.2 with
    | none => .err (.str "error unmarshalling bundle")
    | some b => .ok { s with bundle := some b }
  else if kv.1 = certAnnKey then
    match env.pemDecode kv.2 with
    | none => .crash
    | some blk =>
      match env.parseCertificate blk.bytes with
      | none => .err (.str "error parsing cert")
      | some cert =>
        match parseExtensions cert.extensions with
        | .error e => .err (.wrap "error parsing extensions" e)
        | .ok ext => .ok { s with cert := some cert, extensions := ext }
  else if kv.1 = predTypeAnnKey then
    .ok { s with layerType := kv.2 }
  else .ok s

/-- The annotation loop of `getData`, with Go's early `return` on error. -/
def foldAnnots (env : Env) (s : SignatureData) : List (String × String) → GoResult SignatureData
  | [] => .ok s
  | kv :: rest =>
    match annotStep env s kv with
    | .ok s2 => foldAnnots env s2 rest
    | .err e => .err e
    | .crash => .crash

/-- `readDSSEHeader` (src/unnamed/part_000 lines 116-140): fetch the layer
blob, decode the outer envelope, and if its payload type is the in-toto
type decode the statement header from the base64 payload; a mismatched
payload type returns no header and no error. -/
def readDSSEHeader (env : Env) (digest : String) : Except GoErr (Option StatementHeader) :=
  match env.fetchLayer digest with
  | .error m => .error (.wrap "error getting layer" (.str m))
  | .ok content =>
    match env.decodeEnvelope content with
    | none => .error (.str "error decoding dsse envelope")
    | some envl =>
      if envl.payloadType = intotoPayloadType then
        match env.decodeStatementHeader envl.payload with
        | none => .error (.str "error decoding intoto statement")
        | some h => .ok (some h)
      else .ok none

/-- The per-layer body of `getData`'s loop (src/unnamed/part_000
lines 69-112): run the annotation switch, then unconditionally set
`LayerType` to the declared media type and `Layer` to the layer digest,
then, for DSSE-typed layers, set `PredicateType` from the statement
header when one is present. -/
def processLayer (env : Env) (l : ManifestLayer) : GoResult SignatureData :=
  match foldAnnots env {} l.annots with
  | .err e => .err e
  | .crash => .crash
  | .ok s0 =>
    let s1 : SignatureData := { s0 with layerType := l.mediaType, layer := l.digest }
    if l.mediaType = dsseMediaType then
      match readDSSEHeader env l.digest with
      | .error e => .err (.wrap "error reading intoto header" e)
      | .ok none => .ok s1
      | .ok (some h) => .ok { s1 with predicateType := h.predicateType }
    else .ok s1

/-- The layer loop of `getData`: records accumulate in manifest order and
the first failing layer aborts with its error. -/
def walkLayers (env : Env) : List ManifestLayer → GoResult (List SignatureData)
  | [] => .ok []
  | l :: rest =>
    match processLayer env l with
    | .err e => .err e
    | .crash => .crash
    | .ok s =>
      match walkLayers env rest with
      | .err e => .err e
      | .crash => .crash
      | .ok out => .ok (s :: out)

/-- `getData` (src/unnamed/part_000 lines 53-114): fetch the companion
manifest (the `remote.Image` / `img.Digest` / `img.Manifest` steps are the
external manifest-fetch collaborator), then walk its layers.  A fetch
failure is wrapped with `fmt.Errorf("error getting remote image: %w", err)`,
which keeps the collaborator's error as the cause. -/
def getData (env : Env) (ref : String) : GoResult (String × List SignatureData) :=
  match env.fetchManifest ref with
  | .error fe => .err (.wrap "error getting remote image" (.fetchErr fe))
  | .ok (digest, layers) =>
    match walkLayers env layers with
    | .err e => .err e
    | .crash => .crash
    | .ok out => .ok (digest, out)

/-- Go's `strings.HasPrefix`. -/
def hasPrefixStr (s p : String) : Bool := p.toList.isPrefixOf s.toList

/-- Go's `strings.TrimPrefix`: drop the prefix when present, else return
the string unchanged. -/
def trimPrefixStr (s p : String) : String :=
  if p.toList.isPrefixOf s.toList then String.mk (s.toList.drop p.toList.length) else s

/-- The part of Go's `strings.Cut(s, sep)` the source uses: the substring
before the first occurrence of the single-character separator (the whole
string when absent). -/
def cutBefore (s : String) (c : Char) : String :=
  String.mk (s.toList.takeWhile (fun a => a ≠ c))

/-- Go's `strings.Trim(s, cutset)` for a one-character cutset: remove the
character from both ends. -/
def trimChar (s : String) (c : Char) : String :=
  String.mk (((s.toList.dropWhile (fun a => a = c)).reverse.dropWhile (fun a => a = c)).reverse)

/-- `buildConfigURL` (src/template.go lines 66-74). -/
def buildConfigURL (ext : Extensions) : String :=
  if hasPrefixStr ext.buildConfigURI "https://github.com" then
    let path := trimPrefixStr ext.buildConfigURI ext.sourceRepositoryURI
    let path := cutBefore path '@'
    let path := trimChar path '/'
    ext.sourceRepositoryURI ++ "/blob/" ++ ext.buildConfigDigest ++ "/" ++ path
  else ext.buildConfigURI

/-! Failure propagation: an annotation whose decoding fails on every state
prevents the annotation loop, the layer, and the whole walk from producing
a successful result. -/

theorem foldAnnots_not_ok (env : Env) (kv : String × String)
    (hfail : ∀ s s', annotStep env s kv ≠ .ok s') :
    ∀ anns s0 s', kv ∈ anns → foldAnnots env s0 anns ≠ .ok s' := by
  intro anns
  induction anns with
  | nil => intro s0 s' h; cases h
  | cons a rest ih =>
    intro s0 s' hmem
    rcases List.mem_cons.mp hmem with heq | htail
    · subst heq
      simp only [foldAnnots]
      cases h : annotStep env s0 kv with
      | ok s2 => exact absurd h (hfail s0 s2)
      | err e => simp
      | crash => simp
    · simp only [foldAnnots]
      cases h : annotStep env s0 a with
      | ok s2 => exact ih s2 s' htail
      | err e => simp
      | crash => simp

theorem processLayer_not_ok (env : Env) (l : ManifestLayer)
    (h : ∀ s', foldAnnots env {} l.annots ≠ .ok s') :
    ∀ s', processLayer env l ≠ .ok s' := by
  intro s'
  simp only [processLayer]
  cases hf : foldAnnots env {} l.annots with
  | ok s0 => exact absurd hf (h s0)
  | err e => simp
  | crash => simp

theorem walkLayers_not_ok (env : Env) (l : ManifestLayer)
    (h : ∀ s', processLayer env l ≠ .ok s') :
    ∀ layers out, l ∈ layers → walkLayers env layers ≠ .ok out := by
  intro layers
  induction layers with
  | nil => intro out hmem; cases hmem
  | cons a rest ih =>
    intro out hmem
    rcases List.mem_cons.mp hmem with heq | htail
    · subst heq
      simp only [walkLayers]
      cases hp : processLayer env l with
      | ok s => exact absurd hp (h s)
      | err e => simp
      | crash => simp
    · simp only [walkLayers]
      cases hp : processLayer env a with
      | ok s =>
        cases hw : walkLayers env rest with
        | ok out2 => exact absurd hw (ih out2 htail)
        | err e => simp
        | crash => simp
      | err e => simp
      | crash => simp

theorem getData_not_ok (env : Env) (ref dg : String) (layers : List ManifestLayer)
    (hm : env.fetchManifest ref = .ok (dg, layers))
    (h : ∀ out, walkLayers env layers ≠ .ok out) :
    ∀ d out, getData env ref ≠ .ok (d, out) := by
  intro d out
  simp only [getData, hm]
  cases hw : walkLayers env layers with
  | ok o => exact absurd hw (h o)
  | err e => simp
  | crash => simp

/-! Crash freedom: the only panic in the walker is the unchecked nil PEM
block, so a walk whose certificate annotations all PEM-decode never
crashes. -/

theorem annotStep_no_crash (env : Env) (s : SignatureData) (kv : String × String)
    (h : kv.1 = certAnnKey → env.pemDecode kv.2 ≠ none) :
    annotStep env s kv ≠ .crash := by
  simp only [annotStep]
  by_cases h1 : kv.1 = bundleAnnKey
  · simp only [h1, if_pos rfl]
    cases env.jsonUnmarshalBundle kv.2 <;> simp
  · simp only [if_neg h1]
    by_cases h2 : kv.1 = certAnnKey
    · simp only [h2, if_pos rfl]
      cases hp : env.pemDecode kv.2 with
      | none => exact absurd hp (h h2)
      | some blk =>
        cases hc : env.parseCertificate blk.bytes with
        | none => simp [hc]
        | some cert => cases he : parseExtensions cert.extensions <;> simp [hc, he]
    · simp only [if_neg h2]
      by_cases h3 : kv.1 = predTypeAnnKey
      · simp [h3]
      · simp [if_neg h3]

theorem foldAnnots_no_crash (env : Env) :
    ∀ anns s0, (∀ kv ∈ anns, kv.1 = certAnnKey → env.pemDecode kv.2 ≠ none) →
      foldAnnots env s0 anns ≠ .crash := by
  intro anns
  induction anns with
  | nil => intro s0 _; simp [foldAnnots]
  | cons a rest ih =>
    intro s0 h
    simp only [foldAnnots]
    cases ha : annotStep env s0 a with
    | ok s2 => exact ih s2 (fun kv hkv => h kv (List.mem_cons_of_mem a hkv))
    | err e => simp
    | crash => exact absurd ha (annotStep_no_crash env s0 a (h a (List.mem_cons_self a rest)))

theorem processLayer_no_crash (env : Env) (l : ManifestLayer)
    (h : ∀ kv ∈ l.annots, kv.1 = certAnnKey → env.pemDecode kv.2 ≠ none) :
    processLayer env l ≠ .crash := by
  simp only [processLayer]
  cases hf : foldAnnots env {} l.annots with
  | ok s0 =>
    by_cases hd : l.mediaType = dsseMediaType
    · simp only [hd, if_pos rfl]
      cases readDSSEHeader env l.digest with
      | error e => simp
      | ok o => cases o <;> simp
    · simp [if_neg hd]
  | err e => simp
  | crash => exact absurd hf (foldAnnots_no_crash env l.annots {} h)

theorem walkLayers_no_crash (env : Env) :
    ∀ layers, (∀ l ∈ layers, ∀ kv ∈ l.annots, kv.1 = certAnnKey → env.pemDecode kv.2 ≠ none) →
      walkLayers env layers ≠ .crash := by
  intro layers
  induction layers with
  | nil => simp [walkLayers]
  | cons a rest ih =>
    intro h
    simp only [walkLayers]
    cases hp : processLayer env a with
    | ok s =>
      cases hw : walkLayers env rest with
      | ok out => simp
      | err e => simp
      | crash => exact absurd hw (ih (fun l hl => h l (List.mem_cons_of_mem a hl)))
    | err e => simp
    | crash => exact absurd hp (processLayer_no_crash env a (h a (List.mem_cons_self a rest)))

/-! Per-annotation failure shapes. -/

theorem annotStep_bundle_fail (env : Env) (v : String)
    (hbad : env.jsonUnmarshalBundle v = none) :
    ∀ s s', annotStep env s (bundleAnnKey, v) ≠ .ok s' := by
  intro s s'
  simp [annotStep, hbad]

theorem annotStep_cert_fail (env : Env) (v : String)
    (hbad : env.pemDecode v = none ∨
      ∃ b, env.pemDecode v = some b ∧ env.parseCertificate b.bytes = none) :
    ∀ s s', annotStep env s (certAnnKey, v) ≠ .ok s' := by
  intro s s'
  rcases hbad with hnone | ⟨b, hb, hc⟩
  · simp [annotStep, bundleAnnKey, certAnnKey, hnone]
  · simp [annotStep, bundleAnnKey, certAnnKey, hb, hc]

theorem annotStep_certext_fail (env : Env) (v : String) (b : PemBlock)
    (cert : Certificate) (e : GoErr)
    (hb : env.pemDecode v = some b) (hc : env.parseCertificate b.bytes = some cert)
    (he : parseExtensions cert.extensions = .error e) :
    ∀ s s', annotStep env s (certAnnKey, v) ≠ .ok s' := by
  intro s s'
  simp [annotStep, bundleAnnKey, certAnnKey, hb, hc, he]

/-! Concrete environments used by counterexamples and witnesses. -/

/-- A walk with one layer whose bundle annotation decodes and whose
certificate annotation PEM-decodes but fails DER certificate parsing, plus
a second well-formed layer. -/
def envC1 : Env where
  fetchManifest := fun _ =>
    .ok ("sha256:aaa",
      [⟨"sha256:l1", "application/vnd.dev.cosign.simplesigning.v1+json",
        [(bundleAnnKey, "bundlejson"), (certAnnKey, "badcert")]⟩,
       ⟨"sha256:l2", "text/plain", []⟩])
  jsonUnmarshalBundle := fun s => if s = "bundlejson" then some ⟨1700000000, 42⟩ else none
  pemDecode := fun s => if s = "badcert" then some ⟨[48, 1]⟩ else none
  parseCertificate := fun _ => none
  fetchLayer := fun _ => .error "unused"
  decodeEnvelope := fun _ => none
  decodeStatementHeader := fun _ => none

/-- A walk with one layer whose certificate annotation contains no PEM
block at all. -/
def envC2 : Env where
  fetchManifest := fun _ =>
    .ok ("sha256:bbb",
      [⟨"sha256:l1", "text/plain", [(certAnnKey, "not a pem block")]⟩])
  jsonUnmarshalBundle := fun _ => none
  pemDecode := fun _ => none
  parseCertificate := fun _ => none
  fetchLayer := fun _ => .error "unused"
  decodeEnvelope := fun _ => none
  decodeStatementHeader := fun _ => none

/-- A walk with one layer whose bundle annotation is not valid JSON. -/
def envC3 : Env where
  fetchManifest := fun _ =>
    .ok ("sha256:fff",
      [⟨"sha256:l1", "text/plain", [(bundleAnnKey, "not-json")]⟩])
  jsonUnmarshalBundle := fun _ => none
  pemDecode := fun _ => some ⟨[]⟩
  parseCertificate := fun _ => none
  fetchLayer := fun _ => .error "unused"
  decodeEnvelope := fun _ => none
  decodeStatementHeader := fun _ => none

/-- A certificate carrying a current-family extension whose value is not a
valid DER string (tag 255). -/
def certC8 : Certificate := ⟨[⟨OIDIssuerV2, [255, 1, 0]⟩], [], []⟩

/-- A two-layer walk whose first layer's certificate parses but whose
extension decoding fails on invalid DER; the second layer is well-formed. -/
def envC8 : Env where
  fetchManifest := fun _ =>
    .ok ("sha256:eee",
      [⟨"sha256:l1", "text/plain", [(certAnnKey, "cert-pem")]⟩,
       ⟨"sha256:l2", "text/plain", []⟩])
  jsonUnmarshalBundle := fun _ => none
  pemDecode := fun s => if s = "cert-pem" then some ⟨[1, 2, 3]⟩ else none
  parseCertificate := fun b => if b = [1, 2, 3] then some certC8 else none
  fetchLayer := fun _ => .error "unused"
  decodeEnvelope := fun _ => none
  decodeStatementHeader := fun _ => none

/-- A reference whose companion manifest does not exist. -/
def envC9 : Env where
  fetchManifest := fun _ => .error .notFound
  jsonUnmarshalBundle := fun _ => none
  pemDecode := fun _ => none
  parseCertificate := fun _ => none
  fetchLayer := fun _ => .error "unused"
  decodeEnvelope := fun _ => none
  decodeStatementHeader := fun _ => none

/-! Claim C1. -/

/-- C1, counterexample: a walk whose first layer has a valid bundle
annotation and a certificate annotation that fails DER parsing does NOT
succeed — `getData` returns an error and produces no layer records at all
(the second, well-formed layer included), refuting the claim that the walk
still succeeds with bundle fields populated and other layers present. -/
theorem cert_failure_walk_cex :
    getData envC1 "img" = .err (.str "error parsing cert") ∧
    ∀ d out, getData envC1 "img" ≠ .ok (d, out) :=
  ⟨rfl, fun _ _ h =>
    GoResult.noConfusion ((rfl : getData envC1 "img" = .err (.str "error parsing cert")).symm.trans h)⟩

/-- C1, amended: for every walk over a manifest in which one layer's
certificate annotation fails to parse (PEM decoding yields no block, or DER
certificate parsing fails), the walk does not succeed: `getData` never
returns a result, so no layer records (that layer's or any other's) are
produced. -/
theorem cert_parse_failure_aborts_walk (env : Env) (ref dg : String)
    (layers : List ManifestLayer) (l : ManifestLayer) (v : String)
    (hm : env.fetchManifest ref = .ok (dg, layers)) (hl : l ∈ layers)
    (ha : (certAnnKey, v) ∈ l.annots)
    (hbad : env.pemDecode v = none ∨
      ∃ b, env.pemDecode v = some b ∧ env.parseCertificate b.bytes = none) :
    ∀ d out, getData env ref ≠ .ok (d, out) := by
  have hfold : ∀ s', foldAnnots env {} l.annots ≠ .ok s' := fun s' =>
    foldAnnots_not_ok env (certAnnKey, v) (annotStep_cert_fail env v hbad) l.annots {} s' ha
  have hproc := processLayer_not_ok env l hfold
  have hwalk : ∀ out, walkLayers env layers ≠ .ok out := fun out =>
    walkLayers_not_ok env l hproc layers out hl
  exact getData_not_ok env ref dg layers hm hwalk

/-- C1, witness for the amended theorem, at the concrete environment of the
counterexample. -/
theorem cert_parse_failure_aborts_walk_wit :
    envC1.pemDecode "badcert" = some ⟨[48, 1]⟩ ∧
    envC1.parseCertificate [48, 1] = none ∧
    ∀ d out, getData envC1 "img" ≠ .ok (d, out) :=
  ⟨rfl, rfl,
    cert_parse_failure_aborts_walk envC1 "img" "sha256:aaa"
      [⟨"sha256:l1", "application/vnd.dev.cosign.simplesigning.v1+json",
        [(bundleAnnKey, "bundlejson"), (certAnnKey, "badcert")]⟩,
       ⟨"sha256:l2", "text/plain", []⟩]
      ⟨"sha256:l1", "application/vnd.dev.cosign.simplesigning.v1+json",
        [(bundleAnnKey, "bundlejson"), (certAnnKey, "badcert")]⟩
      "badcert" rfl (by decide) (by decide)
      (Or.inr ⟨⟨[48, 1]⟩, rfl, rfl⟩)⟩

/-! Claim C2. -/

/-- C2: a layer whose certificate annotation yields no PEM block does not
produce a defined parse error — the code dereferences the nil block
(`data.Bytes` on `pem.Decode`'s nil result) and the walk crashes, never
reaching any error return. -/
theorem cert_no_pem_block_crashes :
    getData envC2 "img" = .crash ∧ ∀ e, getData envC2 "img" ≠ .err e :=
  ⟨rfl, fun _ h =>
    GoResult.noConfusion ((rfl : getData envC2 "img" = .crash).symm.trans h)⟩

/-! Claim C3. -/

/-- C3: a walk over a manifest containing a layer whose bundle annotation
fails JSON decoding returns an error, and no (partial) record list is ever
produced.  The side condition rules out the independent nil-PEM-block crash
path (claim C2): every certificate annotation in the manifest must
PEM-decode. -/
theorem malformed_bundle_aborts_walk (env : Env) (ref dg : String)
    (layers : List ManifestLayer) (l : ManifestLayer) (v : String)
    (hm : env.fetchManifest ref = .ok (dg, layers)) (hl : l ∈ layers)
    (ha : (bundleAnnKey, v) ∈ l.annots)
    (hbad : env.jsonUnmarshalBundle v = none)
    (hnocrash : ∀ l' ∈ layers, ∀ kv ∈ l'.annots, kv.1 = certAnnKey → env.pemDecode kv.2 ≠ none) :
    (∃ e, getData env ref = .err e) ∧ ∀ d out, getData env ref ≠ .ok (d, out) := by
  have hfold : ∀ s', foldAnnots env {} l.annots ≠ .ok s' := fun s' =>
    foldAnnots_not_ok env (bundleAnnKey, v) (annotStep_bundle_fail env v hbad) l.annots {} s' ha
  have hproc := processLayer_not_ok env l hfold
  have hwalk : ∀ out, walkLayers env layers ≠ .ok out := fun out =>
    walkLayers_not_ok env l hproc layers out hl
  refine ⟨?_, getData_not_ok env ref dg layers hm hwalk⟩
  have hnc := walkLayers_no_crash env layers hnocrash
  cases hw : walkLayers env layers with
  | ok o => exact absurd hw (hwalk o)
  | err e => exact ⟨e, by simp [getData, hm, hw]⟩
  | crash => exact absurd hw hnc

/-- C3, witness at a concrete one-layer manifest whose bundle annotation is
malformed. -/
theorem malformed_bundle_aborts_walk_wit :
    envC3.jsonUnmarshalBundle "not-json" = none ∧
    ∃ e, getData envC3 "img" = .err e :=
  ⟨rfl,
    (malformed_bundle_aborts_walk envC3 "img" "sha256:fff"
      [⟨"sha256:l1", "text/plain", [(bundleAnnKey, "not-json")]⟩]
      ⟨"sha256:l1", "text/plain", [(bundleAnnKey, "not-json")]⟩
      "not-json" rfl (by decide) (by decide) rfl
      (by
        intro l' hl' kv hkv hck
        simp [envC3])).1⟩

/-! Claim C8. -/

/-- C8, counterexample: a two-layer walk whose first layer's certificate
carries an invalid-DER current-family extension returns the extension error
for the WHOLE walk — no record list is produced, so the well-formed second
layer is lost, refuting "does not abort the whole walk". -/
theorem ext_der_failure_walk_cex :
    getData envC8 "img" =
      .err (.wrap "error parsing extensions" (.str "unmarshalling DER-encoded string")) ∧
    ∀ d out, getData envC8 "img" ≠ .ok (d, out) :=
  ⟨rfl, fun _ _ h =>
    GoResult.noConfusion
      ((rfl : getData envC8 "img" =
        .err (.wrap "error parsing extensions" (.str "unmarshalling DER-encoded string"))).symm.trans h)⟩

/-- C8, amended: a current-family extension value that is not a valid DER
string makes extension decoding fail with a hard error surfaced to the
caller, and that error aborts the ENTIRE walk: `getData` never returns a
record list. -/
theorem ext_decode_failure_aborts_walk (env : Env) (ref dg : String)
    (layers : List ManifestLayer) (l : ManifestLayer) (v : String) (b : PemBlock)
    (cert : Certificate) (e : GoErr)
    (hm : env.fetchManifest ref = .ok (dg, layers)) (hl : l ∈ layers)
    (ha : (certAnnKey, v) ∈ l.annots)
    (hb : env.pemDecode v = some b) (hc : env.parseCertificate b.bytes = some cert)
    (he : parseExtensions cert.extensions = .error e) :
    ∀ d out, getData env ref ≠ .ok (d, out) := by
  have hfold : ∀ s', foldAnnots env {} l.annots ≠ .ok s' := fun s' =>
    foldAnnots_not_ok env (certAnnKey, v)
      (annotStep_certext_fail env v b cert e hb hc he) l.annots {} s' ha
  have hproc := processLayer_not_ok env l hfold
  have hwalk : ∀ out, walkLayers env layers ≠ .ok out := fun out =>
    walkLayers_not_ok env l hproc layers out hl
  exact getData_not_ok env ref dg layers hm hwalk

/-- C8, witness for the amended theorem at the concrete environment of the
counterexample. -/
theorem ext_decode_failure_aborts_walk_wit :
    parseExtensions certC8.extensions =
      .error (.str "unmarshalling DER-encoded string") ∧
    ∀ d out, getData envC8 "img" ≠ .ok (d, out) :=
  ⟨rfl,
    ext_decode_failure_aborts_walk envC8 "img" "sha256:eee"
      [⟨"sha256:l1", "text/plain", [(certAnnKey, "cert-pem")]⟩,
       ⟨"sha256:l2", "text/plain", []⟩]
      ⟨"sha256:l1", "text/plain", [(certAnnKey, "cert-pem")]⟩
      "cert-pem" ⟨[1, 2, 3]⟩ certC8 (.str "unmarshalling DER-encoded string")
      rfl (by decide) (by decide) rfl rfl rfl⟩

/-! Claim C9. -/

/-- C9: when the companion manifest fetch fails, the walk wraps the
collaborator's error with `%w`, preserving it as the cause; unwrapping the
returned error (as `errors.Is`/`errors.As` does) identifies the NotFound
condition exactly when the fetch failure was NotFound, so callers can
distinguish "no signatures" from a transport failure. -/
theorem walker_reports_notfound_distinct (env : Env) (ref : String) (fe : FetchErr)
    (h : env.fetchManifest ref = .error fe) :
    getData env ref = .err (.wrap "error getting remote image" (.fetchErr fe)) ∧
    (GoErr.isNotFound (.wrap "error getting remote image" (.fetchErr fe)) = true ↔
      fe = .notFound) := by
  constructor
  · simp [getData, h]
  · cases fe with
    | notFound => simp [GoErr.isNotFound]
    | transportErr m => simp [GoErr.isNotFound]

/-- C9, witness: a concrete absent companion manifest yields the wrapped
NotFound cause, and the unwrapper recognises it. -/
theorem walker_reports_notfound_distinct_wit :
    getData envC9 "img" = .err (.wrap "error getting remote image" (.fetchErr .notFound)) ∧
    (GoErr.isNotFound (.wrap "error getting remote image" (.fetchErr .notFound)) = true ↔
      FetchErr.notFound = .notFound) :=
  walker_reports_notfound_distinct envC9 "img" .notFound rfl

/-! Claims C4 and C5: the `predicateType` annotation is assigned to
`s.LayerType` (src/unnamed/part_000 line 94), which line 97 then
unconditionally overwrites with the declared media type, so the annotation
value never reaches the record's predicate-type field. -/

/-- A DSSE-typed layer carrying a `predicateType` annotation, whose outer
envelope payload-type is not the in-toto statement type. -/
def envC4 : Env where
  fetchManifest := fun _ =>
    .ok ("sha256:ccc",
      [⟨"sha256:l1", dsseMediaType,
        [(predTypeAnnKey, "https://example.com/custom-predicate")]⟩])
  jsonUnmarshalBundle := fun _ => none
  pemDecode := fun _ => none
  parseCertificate := fun _ => none
  fetchLayer := fun _ => .ok "envelope-bytes"
  decodeEnvelope := fun _ => some ⟨"application/vnd.cosign.simplesigning.v1+json", "payload"⟩
  decodeStatementHeader := fun _ => none

/-- A plain (non-DSSE) layer carrying a `predicateType` annotation. -/
def envC5 : Env where
  fetchManifest := fun _ =>
    .ok ("sha256:ddd",
      [⟨"sha256:l1", "text/plain",
        [(predTypeAnnKey, "https://slsa.dev/provenance/v1")]⟩])
  jsonUnmarshalBundle := fun _ => none
  pemDecode := fun _ => none
  parseCertificate := fun _ => none
  fetchLayer := fun _ => .error "unused"
  decodeEnvelope := fun _ => none
  decodeStatementHeader := fun _ => none

/-- C4: evaluating the walk at a DSSE layer whose envelope payload type is
not the in-toto type and whose `predicateType` annotation is
`https://example.com/custom-predicate`: no error is raised, but the
record's predicate-type field is empty rather than the annotation value —
the annotation was written into `LayerType` and then overwritten by the
media type. -/
theorem predicate_annotation_lost_dsse :
    getData envC4 "img" =
      .ok ("sha256:ccc",
        [{ layer := "sha256:l1", layerType := dsseMediaType, predicateType := "" }]) := rfl

/-- C5: evaluating the walk at a plain layer whose `predicateType`
annotation is `https://slsa.dev/provenance/v1`: the annotation value is not
copied into the record's predicate-type field (which stays empty); it lands
in `LayerType`, which the media type then overwrites even though no
statement-header extraction was triggered. -/
theorem predicate_annotation_not_copied :
    getData envC5 "img" =
      .ok ("sha256:ddd",
        [{ layer := "sha256:l1", layerType := "text/plain", predicateType := "" }]) := rfl

/-! Claim C6. -/

/-- C6: `buildConfigURL` returns, for a build-config URI with the
`https://github.com` prefix, the composition
`repoURI/blob/buildConfigDigest/path` where `path` is the build-config URI
with the source-repository URI prefix stripped, truncated at the first `@`
and slash-trimmed; otherwise the build-config URI unchanged. -/
theorem buildConfigURL_spec_ok (ext : Extensions) :
    (hasPrefixStr ext.buildConfigURI "https://github.com" = true →
      buildConfigURL ext =
        ext.sourceRepositoryURI ++ "/blob/" ++ ext.buildConfigDigest ++ "/" ++
          trimChar (cutBefore (trimPrefixStr ext.buildConfigURI ext.sourceRepositoryURI) '@') '/') ∧
    (hasPrefixStr ext.buildConfigURI "https://github.com" = false →
      buildConfigURL ext = ext.buildConfigURI) := by
  constructor
  · intro h
    simp [buildConfigURL, h]
  · intro h
    simp [buildConfigURL, h]

/-- C6, witness: the GitHub-hosted case composes the browsable URL, and a
non-GitHub URI is returned unchanged. -/
theorem buildConfigURL_spec_ok_wit :
    buildConfigURL
      { buildConfigURI := "https://github.com/org/repo/.github/workflows/build.yml@refs/heads/main",
        sourceRepositoryURI := "https://github.com/org/repo",
        buildConfigDigest := "abc" } =
      "https://github.com/org/repo/blob/abc/.github/workflows/build.yml" ∧
    buildConfigURL { buildConfigURI := "gs://bucket/cfg" } = "gs://bucket/cfg" :=
  ⟨((buildConfigURL_spec_ok
      { buildConfigURI := "https://github.com/org/repo/.github/workflows/build.yml@refs/heads/main",
        sourceRepositoryURI := "https://github.com/org/repo",
        buildConfigDigest := "abc" }).1 (by decide)).trans (by decide),
   (buildConfigURL_spec_ok { buildConfigURI := "gs://bucket/cfg" }).2 (by decide)⟩

/-! Claim C7. -/

/-- Follows the spec's words for the legacy family: each recognized legacy
field is assigned exactly the raw extension bytes read directly as the
field's string value, and every extension with an unrecognized OID is
ignored. -/
def legacyAssign (out : Extensions) (e : PkixExtension) : Extensions :=
  if e.oid = OIDIssuer then { out with issuer := rawStr e.value }
  else if e.oid = OIDGitHubWorkflowTrigger then
    { out with githubWorkflowTrigger := rawStr e.value }
  else if e.oid = OIDGitHubWorkflowSHA then
    { out with githubWorkflowSHA := rawStr e.value }
  else if e.oid = OIDGitHubWorkflowName then
    { out with githubWorkflowName := rawStr e.value }
  else if e.oid = OIDGitHubWorkflowRepository then
    { out with githubWorkflowRepository := rawStr e.value }
  else if e.oid = OIDGitHubWorkflowRef then
    { out with githubWorkflowRef := rawStr e.value }
  else out

theorem extStep_legacy (out : Extensions) (e : PkixExtension)
    (h : e.oid ∉ currentOIDs) : extStep out e = .ok (legacyAssign out e) := by
  simp only [currentOIDs, List.mem_cons, List.not_mem_nil, or_false, not_or] at h
  obtain ⟨h8, h9, h10, h11, h12, h13, h14, h15, h16, h17, h18, h19, h20, h21, h22⟩ := h
  simp only [extStep, legacyAssign, h8, h9, h10, h11, h12, h13, h14, h15, h16,
    h17, h18, h19, h20, h21, h22, if_false]
  split_ifs <;> rfl

theorem parseExtensionsAux_legacy (exts : List PkixExtension) :
    ∀ acc, (∀ e ∈ exts, e.oid ∉ currentOIDs) →
      parseExtensionsAux acc exts = .ok (exts.foldl legacyAssign acc) := by
  induction exts with
  | nil => intro acc _; rfl
  | cons e rest ih =>
    intro acc h
    have hstep := extStep_legacy acc e (h e (List.mem_cons_self e rest))
    simp only [parseExtensionsAux, hstep, List.foldl_cons]
    exact ih _ (fun x hx => h x (List.mem_cons_of_mem e hx))

/-- C7: for a certificate extension list containing no current-family OID,
extension decoding succeeds without error and equals the fold of the
spec-side legacy assignment, in which each recognized field is exactly the
raw extension bytes interpreted directly as a string and every extension
with an unrecognized OID is ignored. -/
theorem legacy_extensions_raw_string (exts : List PkixExtension)
    (h : ∀ e ∈ exts, e.oid ∉ currentOIDs) :
    parseExtensions exts = .ok (exts.foldl legacyAssign {}) :=
  parseExtensionsAux_legacy exts {} h

/-- C7, witness: a legacy issuer extension plus an unrecognized OID decode
without error, the issuer field taking the raw bytes as a string. -/
theorem legacy_extensions_raw_string_wit :
    (∀ e ∈ [(⟨OIDIssuer, [104, 105]⟩ : PkixExtension), ⟨[9, 9, 9], [1]⟩],
      e.oid ∉ currentOIDs) ∧
    parseExtensions [(⟨OIDIssuer, [104, 105]⟩ : PkixExtension), ⟨[9, 9, 9], [1]⟩] =
      .ok ([(⟨OIDIssuer, [104, 105]⟩ : PkixExtension), ⟨[9, 9, 9], [1]⟩].foldl legacyAssign {}) ∧
    ([(⟨OIDIssuer, [104, 105]⟩ : PkixExtension), ⟨[9, 9, 9], [1]⟩].foldl legacyAssign {}).issuer = "hi" :=
  ⟨by decide, legacy_extensions_raw_string _ (by decide), by decide⟩

/-! Claim C10: order-independence of the annotation map iteration. -/

/-- Whether the certificate-annotation decode chain (PEM, DER certificate,
extension decoding) succeeds for a value. -/
def certDecodes (env : Env) (v : String) : Bool :=
  match env.pemDecode v with
  | none => false
  | some blk =>
    match env.parseCertificate blk.bytes with
    | none => false
    | some cert =>
      match parseExtensions cert.extensions with
      | .error _ => false
      | .ok _ => true

/-- Whether one annotation decodes successfully in `annotStep`. -/
def annotDecodes (env : Env) (kv : String × String) : Bool :=
  if kv.1 = bundleAnnKey then (env.jsonUnmarshalBundle kv.2).isSome
  else if kv.1 = certAnnKey then certDecodes env kv.2
  else true

/-- The effect of the bundle-annotation branch on the record. -/
def bundleApply (env : Env) (s : SignatureData) (v : String) : SignatureData :=
  match env.jsonUnmarshalBundle v with
  | none => s
  | some b => { s with bundle := some b }

/-- The effect of the certificate-annotation branch on the record. -/
def certApply (env : Env) (s : SignatureData) (v : String) : SignatureData :=
  match env.pemDecode v with
  | none => s
  | some blk =>
    match env.parseCertificate blk.bytes with
    | none => s
    | some cert =>
      match parseExtensions cert.extensions with
      | .error _ => s
      | .ok ext => { s with cert := some cert, extensions := ext }

/-- The effect of the predicate-type-annotation branch on the record (the
source writes the annotation value into `LayerType`). -/
def predApply (s : SignatureData) (v : String) : SignatureData := { s with layerType := v }

/-- The annotation switch as a total state-transformer, agreeing with
`annotStep` whenever the annotation decodes. -/
def pureStep (env : Env) (s : SignatureData) (kv : String × String) : SignatureData :=
  if kv.1 = bundleAnnKey then bundleApply env s kv.2
  else if kv.1 = certAnnKey then certApply env s kv.2
  else if kv.1 = predTypeAnnKey then predApply s kv.2
  else s

theorem annotStep_ok_of_decodes (env : Env) (kv : String × String)
    (hd : annotDecodes env kv = true) (s : SignatureData) :
    annotStep env s kv = .ok (pureStep env s kv) := by
  unfold annotDecodes at hd
  by_cases h1 : kv.1 = bundleAnnKey
  · rw [if_pos h1] at hd
    cases hb : env.jsonUnmarshalBundle kv.2 with
    | none => rw [hb, Option.isSome_none] at hd; cases hd
    | some b => simp [annotStep, pureStep, bundleApply, h1, hb]
  · rw [if_neg h1] at hd
    by_cases h2 : kv.1 = certAnnKey
    · rw [if_pos h2] at hd
      cases hp : env.pemDecode kv.2 with
      | none => simp [certDecodes, hp] at hd
      | some blk =>
        cases hc : env.parseCertificate blk.bytes with
        | none => simp [certDecodes, hp, hc] at hd
        | some cert =>
          cases he : parseExtensions cert.extensions with
          | error e => simp [certDecodes, hp, hc, he] at hd
          | ok ext => simp [annotStep, pureStep, certApply, bundleAnnKey,
              certAnnKey, h2, hp, hc, he]
    · by_cases h3 : kv.1 = predTypeAnnKey
      · simp [annotStep, pureStep, predApply, bundleAnnKey, certAnnKey,
          predTypeAnnKey, h3]
      · simp [annotStep, pureStep, h1, h2, h3]

theorem foldAnnots_eq_foldl (env : Env) :
    ∀ anns s0, (∀ kv ∈ anns, annotDecodes env kv = true) →
      foldAnnots env s0 anns = .ok (anns.foldl (pureStep env) s0) := by
  intro anns
  induction anns with
  | nil => intro s0 _; rfl
  | cons a rest ih =>
    intro s0 h
    have hstep := annotStep_ok_of_decodes env a (h a (List.mem_cons_self a rest)) s0
    simp only [foldAnnots, hstep, List.foldl_cons]
    exact ih _ (fun kv hkv => h kv (List.mem_cons_of_mem a hkv))

/-- The certificate chain's outcome depends only on the environment and the
annotation value, not on the record state. -/
def certResult (env : Env) (v : String) : Option (Certificate × Extensions) :=
  match env.pemDecode v with
  | none => none
  | some blk =>
    match env.parseCertificate blk.bytes with
    | none => none
    | some cert =>
      match parseExtensions cert.extensions with
      | .error _ => none
      | .ok ext => some (cert, ext)

theorem certApply_eq (env : Env) (s : SignatureData) (v : String) :
    certApply env s v =
      match certResult env v with
      | none => s
      | some (c, e) => { s with cert := some c, extensions := e } := by
  cases hp : env.pemDecode v with
  | none => simp [certApply, certResult, hp]
  | some blk =>
    cases hc : env.parseCertificate blk.bytes with
    | none => simp [certApply, certResult, hp, hc]
    | some cert =>
      cases he : parseExtensions cert.extensions with
      | error e => simp [certApply, certResult, hp, hc, he]
      | ok ext => simp [certApply, certResult, hp, hc, he]

theorem bundleApply_certApply_comm (env : Env) (s : SignatureData) (v w : String) :
    bundleApply env (certApply env s v) w = certApply env (bundleApply env s w) v := by
  rw [certApply_eq, certApply_eq]
  cases certResult env v with
  | none => rfl
  | some p =>
    obtain ⟨c, e⟩ := p
    cases hb : env.jsonUnmarshalBundle w <;> simp [bundleApply, hb]

theorem bundleApply_predApply_comm (env : Env) (s : SignatureData) (v w : String) :
    bundleApply env (predApply s w) v = predApply (bundleApply env s v) w := by
  cases hb : env.jsonUnmarshalBundle v <;> simp [bundleApply, predApply, hb]

theorem certApply_predApply_comm (env : Env) (s : SignatureData) (v w : String) :
    certApply env (predApply s w) v = predApply (certApply env s v) w := by
  rw [certApply_eq, certApply_eq]
  cases certResult env v with
  | none => rfl
  | some p => obtain ⟨c, e⟩ := p; rfl

theorem pureStep_comm (env : Env) (x y : String × String)
    (hxy : x.1 ≠ y.1 ∨ x = y) (z : SignatureData) :
    pureStep env (pureStep env z x) y = pureStep env (pureStep env z y) x := by
  rcases hxy with hne | heq
  · unfold pureStep
    split_ifs <;>
      first
        | rfl
        | exact bundleApply_certApply_comm env z _ _
        | exact (bundleApply_certApply_comm env z _ _).symm
        | exact bundleApply_predApply_comm env z _ _
        | exact (bundleApply_predApply_comm env z _ _).symm
        | exact certApply_predApply_comm env z _ _
        | exact (certApply_predApply_comm env z _ _).symm
        | simp_all
  · subst heq; rfl

theorem key_eq_of_nodup {anns : List (String × String)}
    (hnd : (anns.map Prod.fst).Nodup) {x y : String × String}
    (hx : x ∈ anns) (hy : y ∈ anns) (hk : x.1 = y.1) : x = y := by
  induction anns with
  | nil => cases hx
  | cons a rest ih =>
    simp only [List.map_cons, List.nodup_cons] at hnd
    rcases List.mem_cons.mp hx with rfl | hx' <;> rcases List.mem_cons.mp hy with rfl | hy'
    · rfl
    · exact absurd (hk ▸ List.mem_map_of_mem Prod.fst hy') hnd.1
    · exact absurd (hk ▸ List.mem_map_of_mem Prod.fst hx') hnd.1
    · exact ih hnd.2 hx' hy'

theorem foldl_pureStep_perm (env : Env) {anns1 anns2 : List (String × String)}
    (hp : anns1.Perm anns2) (hnd : (anns1.map Prod.fst).Nodup) (s0 : SignatureData) :
    anns1.foldl (pureStep env) s0 = anns2.foldl (pureStep env) s0 := by
  refine hp.foldl_eq' ?_ s0
  intro x hx y hy z
  by_cases hxy : x = y
  · subst hxy; rfl
  · exact pureStep_comm env x y
      (Or.inl (fun hk => hxy (key_eq_of_nodup hnd hx hy hk))) z

theorem processLayer_ok_layerType (env : Env) (l : ManifestLayer) (s : SignatureData)
    (h : processLayer env l = .ok s) : s.layerType = l.mediaType := by
  simp only [processLayer] at h
  cases hf : foldAnnots env {} l.annots with
  | err e => simp only [hf] at h; exact GoResult.noConfusion h
  | crash => simp only [hf] at h; exact GoResult.noConfusion h
  | ok s0 =>
    simp only [hf] at h
    by_cases hd : l.mediaType = dsseMediaType
    · rw [if_pos hd] at h
      cases hr : readDSSEHeader env l.digest with
      | error e => simp only [hr] at h; exact GoResult.noConfusion h
      | ok o =>
        cases o with
        | none => simp only [hr] at h; cases h; rfl
        | some hh => simp only [hr] at h; cases h; rfl
    · rw [if_neg hd] at h
      cases h; rfl

/-- C10: for a layer whose annotations all decode successfully, the
assembled record does not depend on the iteration order of the annotation
map (any permutation of the unique-keyed association list yields the same
result), and the record's layer-type field always ends up equal to the
layer's declared media type. -/
theorem layer_record_order_independent (env : Env) (l : ManifestLayer)
    (anns1 anns2 : List (String × String)) (hp : anns1.Perm anns2)
    (hnd : (anns1.map Prod.fst).Nodup)
    (hok : ∀ kv ∈ anns1, annotDecodes env kv = true) :
    processLayer env { l with annots := anns1 } =
      processLayer env { l with annots := anns2 } ∧
    ∀ s, processLayer env { l with annots := anns1 } = .ok s →
      s.layerType = l.mediaType := by
  have hok2 : ∀ kv ∈ anns2, annotDecodes env kv = true := fun kv hkv =>
    hok kv (hp.mem_iff.mpr hkv)
  have h1 := foldAnnots_eq_foldl env anns1 {} hok
  have h2 := foldAnnots_eq_foldl env anns2 {} hok2
  have hfl := foldl_pureStep_perm env hp hnd ({} : SignatureData)
  constructor
  · simp only [processLayer, h1, h2, hfl]
  · exact fun s h => processLayer_ok_layerType env { l with annots := anns1 } s h

/-- A trivial environment whose bundle decoder always succeeds, used for
the C10 witness. -/
def envC10 : Env where
  fetchManifest := fun _ => .ok ("sha256:ggg", [])
  jsonUnmarshalBundle := fun _ => some ⟨7, 9⟩
  pemDecode := fun _ => none
  parseCertificate := fun _ => none
  fetchLayer := fun _ => .error "unused"
  decodeEnvelope := fun _ => none
  decodeStatementHeader := fun _ => none

/-- C10, witness: the two iteration orders of a bundle + predicate-type
annotation map produce the same record. -/
theorem layer_record_order_independent_wit :
    ([(bundleAnnKey, "B"), (predTypeAnnKey, "P")] : List (String × String)).Perm
      [(predTypeAnnKey, "P"), (bundleAnnKey, "B")] ∧
    processLayer envC10 ⟨"sha256:l1", "text/plain", [(bundleAnnKey, "B"), (predTypeAnnKey, "P")]⟩ =
      processLayer envC10 ⟨"sha256:l1", "text/plain", [(predTypeAnnKey, "P"), (bundleAnnKey, "B")]⟩ :=
  ⟨List.Perm.swap (predTypeAnnKey, "P") (bundleAnnKey, "B") [],
    (layer_record_order_independent envC10 ⟨"sha256:l1", "text/plain", []⟩
      [(bundleAnnKey, "B"), (predTypeAnnKey, "P")]
      [(predTypeAnnKey, "P"), (bundleAnnKey, "B")]
      (List.Perm.swap (predTypeAnnKey, "P") (bundleAnnKey, "B") [])
      (by decide) (by decide)).1⟩

end OciFyi
